import Mathlib

/-!
Shallow embedding of the payments ledger engine
(`src/payments_engine.rs`, `src/transaction.rs`, `src/account.rs`,
`src/error.rs`, `src/processor.rs`).

Monetary values (`rust_decimal::Decimal`) are modelled as rationals.
The two hash maps of the engine are modelled as functions into `Option`;
a key that maps to `none` is absent.  Rust methods that mutate `self` in
place are modelled as functions that return the new engine state; an
early `return Err` in Rust keeps every mutation made before it, which the
model reproduces by returning the partially updated state together with
the error.
-/

namespace Payments

/-- `TransactionType` of `src/transaction.rs`. -/
inductive TransactionType where
  | Deposit
  | Withdrawal
deriving DecidableEq, Repr

/-- `TransactionStatus` of `src/transaction.rs`. -/
inductive TransactionStatus where
  | Completed
  | Disputed
  | Resolved
  | Chargebacked
deriving DecidableEq, Repr

/-- `Transaction` of `src/transaction.rs`. -/
structure Transaction where
  tx_type : TransactionType
  account_id : Nat
  tx_id : Nat
  amount : ℚ
  status : TransactionStatus
deriving DecidableEq, Repr

/-- `Account` of `src/account.rs`. -/
structure Account where
  client : Nat
  available : ℚ
  held : ℚ
  total : ℚ
  locked : Bool
deriving DecidableEq, Repr

attribute [ext] Account

/-- `PaymentError` of `src/error.rs` (the conversion-error variant of the
adapter boundary is not needed by the engine model). -/
inductive PaymentError where
  | InsufficientFunds
  | InsufficientHoldFunds
  | AccountLocked (id : Nat)
  | AccountNotFound (id : Nat)
  | TransactionNotFound
  | InvalidTransactionType
  | TransactionAlreadyExists
  | TransactionAlreadyDisputed
  | TransactionIsNotDisputed
deriving DecidableEq, Repr

/-- `PaymentEngine` of `src/payments_engine.rs`: the two owned maps. -/
structure PaymentEngine where
  accounts : Nat → Option Account
  transactions : Nat → Option (Nat → Option Transaction)

namespace PaymentEngine

/-- `PaymentEngine::new`. -/
def new : PaymentEngine :=
  { accounts := fun _ => none, transactions := fun _ => none }

/-- `PaymentEngine::update_account_balance`: applies the three deltas
all-or-nothing, rejecting any delta that would take a component
negative. -/
def update_account_balance (e : PaymentEngine) (account_id : Nat)
    (available_delta held_delta total_delta : ℚ) :
    Except PaymentError PaymentEngine :=
  match e.accounts account_id with
  | some account =>
      if account.available + available_delta < 0
          ∨ account.held + held_delta < 0
          ∨ account.total + total_delta < 0 then
        .error .InsufficientFunds
      else
        let account1 : Account :=
          { account with
            available := account.available + available_delta
            held := account.held + held_delta
            total := account.total + total_delta }
        let accounts1 : Nat → Option Account := fun k =>
          if k = account_id then some account1 else e.accounts k
        .ok { e with accounts := accounts1 }
  | none => .error (.AccountNotFound account_id)

/-- `PaymentEngine::update_transaction_status`. -/
def update_transaction_status (e : PaymentEngine) (account_id tx_id : Nat)
    (new_status : TransactionStatus) : Except PaymentError PaymentEngine :=
  match e.transactions account_id with
  | none => .error .TransactionNotFound
  | some bucket =>
    match bucket tx_id with
    | none => .error .TransactionNotFound
    | some t =>
      let bucket1 : Nat → Option Transaction := fun j =>
        if j = tx_id then some { t with status := new_status } else bucket j
      let transactions1 : Nat → Option (Nat → Option Transaction) := fun k =>
        if k = account_id then some bucket1 else e.transactions k
      .ok { e with transactions := transactions1 }

/-- `PaymentEngine::get_deposit_transaction_status` (read-only lookup that
also insists the stored transaction is a Deposit). -/
def get_deposit_transaction_status (e : PaymentEngine) (account_id tx_id : Nat) :
    Except PaymentError Transaction :=
  match e.transactions account_id with
  | none => .error .TransactionNotFound
  | some bucket =>
    match bucket tx_id with
    | none => .error .TransactionNotFound
    | some t =>
      if t.tx_type ≠ TransactionType.Deposit then .error .InvalidTransactionType
      else .ok t

/-- `PaymentEngine::check_transaction`. -/
def check_transaction (e : PaymentEngine) (account_id tx_id : Nat) : Bool :=
  match e.transactions account_id with
  | none => false
  | some bucket => (bucket tx_id).isSome

/-- The zero-balance unlocked account inserted by
`PaymentEngine::get_or_create_account`. -/
def freshAccount (account_id : Nat) : Account :=
  { client := account_id, available := 0, held := 0, total := 0, locked := false }

/-- `PaymentEngine::get_or_create_account`: returns the (possibly
extended) engine and the account the Rust reference points at. -/
def get_or_create_account (e : PaymentEngine) (account_id : Nat) :
    PaymentEngine × Account :=
  match e.accounts account_id with
  | some account => (e, account)
  | none =>
    let accounts1 : Nat → Option Account := fun k =>
      if k = account_id then some (freshAccount account_id) else e.accounts k
    ({ e with accounts := accounts1 }, freshAccount account_id)

/-- `PaymentEngine::insert_transaction`. -/
def insert_transaction (e : PaymentEngine) (t : Transaction) : PaymentEngine :=
  let bucket := (e.transactions t.account_id).getD (fun _ => none)
  let bucket1 : Nat → Option Transaction := fun j =>
    if j = t.tx_id then some t else bucket j
  let transactions1 : Nat → Option (Nat → Option Transaction) := fun k =>
    if k = t.account_id then some bucket1 else e.transactions k
  { e with transactions := transactions1 }

/-- `PaymentEngine::lock_account`: no-op when the account is absent. -/
def lock_account (e : PaymentEngine) (account_id : Nat) : PaymentEngine :=
  match e.accounts account_id with
  | some account =>
    let accounts1 : Nat → Option Account := fun k =>
      if k = account_id then some { account with locked := true } else e.accounts k
    { e with accounts := accounts1 }
  | none => e

/-- `PaymentEngine::is_account_locked`: false when the account is absent. -/
def is_account_locked (e : PaymentEngine) (account_id : Nat) : Bool :=
  match e.accounts account_id with
  | some a => a.locked
  | none => false

/-- `PaymentEngine::process_transaction` (deposit / withdrawal). -/
def process_transaction (e : PaymentEngine) (t : Transaction) :
    PaymentEngine × Except PaymentError Unit :=
  let p := e.get_or_create_account t.account_id
  let e1 := p.1
  let account_available := p.2.available
  if e1.is_account_locked t.account_id then
    (e1, .error (.AccountLocked t.account_id))
  else if e1.check_transaction t.account_id t.tx_id then
    (e1, .error .TransactionAlreadyExists)
  else
    match (match t.tx_type with
           | .Deposit => Except.ok (t.amount, (0 : ℚ), t.amount)
           | .Withdrawal =>
             if account_available ≥ t.amount then
               Except.ok (-t.amount, (0 : ℚ), -t.amount)
             else Except.error PaymentError.InsufficientFunds) with
    | .error err => (e1, .error err)
    | .ok (da, dh, dt) =>
      match e1.update_account_balance t.account_id da dh dt with
      | .error err => (e1, .error err)
      | .ok e2 => (e2.insert_transaction t, .ok ())

/-- `PaymentEngine::process_dispute`. -/
def process_dispute (e : PaymentEngine) (account_id tx_id : Nat) :
    PaymentEngine × Except PaymentError Unit :=
  if e.is_account_locked account_id then
    (e, .error (.AccountLocked account_id))
  else
    match e.get_deposit_transaction_status account_id tx_id with
    | .error err => (e, .error err)
    | .ok existing =>
      if existing.status = TransactionStatus.Completed then
        let amount := existing.amount
        match e.accounts account_id with
        | some account =>
          if account.available < amount then
            (e, .error .InsufficientHoldFunds)
          else
            match e.update_account_balance account_id (-amount) amount 0 with
            | .error err => (e, .error err)
            | .ok e1 =>
              match e1.update_transaction_status account_id tx_id .Disputed with
              | .error err => (e1, .error err)
              | .ok e2 => (e2, .ok ())
        | none => (e, .error (.AccountNotFound account_id))
      else
        (e, .error .TransactionAlreadyDisputed)

/-- `PaymentEngine::process_resolve`. -/
def process_resolve (e : PaymentEngine) (account_id tx_id : Nat) :
    PaymentEngine × Except PaymentError Unit :=
  if e.is_account_locked account_id then
    (e, .error (.AccountLocked account_id))
  else
    match e.get_deposit_transaction_status account_id tx_id with
    | .error err => (e, .error err)
    | .ok existing =>
      if existing.status ≠ TransactionStatus.Disputed then
        if existing.status = TransactionStatus.Resolved
            ∨ existing.status = TransactionStatus.Chargebacked then
          (e, .error .TransactionAlreadyDisputed)
        else
          (e, .error .TransactionIsNotDisputed)
      else
        let amount := existing.amount
        match e.accounts account_id with
        | some account =>
          if account.held < amount then
            (e, .error .InsufficientHoldFunds)
          else
            match e.update_account_balance account_id amount (-amount) 0 with
            | .error err => (e, .error err)
            | .ok e1 =>
              match e1.update_transaction_status account_id tx_id .Resolved with
              | .error err => (e1, .error err)
              | .ok e2 => (e2, .ok ())
        | none => (e, .error (.AccountNotFound account_id))

/-- `PaymentEngine::process_chargeback`. -/
def process_chargeback (e : PaymentEngine) (account_id tx_id : Nat) :
    PaymentEngine × Except PaymentError Unit :=
  if e.is_account_locked account_id then
    (e, .error (.AccountLocked account_id))
  else
    match e.get_deposit_transaction_status account_id tx_id with
    | .error err => (e, .error err)
    | .ok existing =>
      if existing.status ≠ TransactionStatus.Disputed then
        if existing.status = TransactionStatus.Resolved
            ∨ existing.status = TransactionStatus.Chargebacked then
          (e, .error .TransactionAlreadyDisputed)
        else
          (e, .error .TransactionIsNotDisputed)
      else
        let amount := existing.amount
        match e.accounts account_id with
        | some account =>
          if account.held < amount then
            (e, .error .InsufficientHoldFunds)
          else
            match e.update_account_balance account_id 0 (-amount) (-amount) with
            | .error err => (e, .error err)
            | .ok e1 =>
              match e1.update_transaction_status account_id tx_id .Chargebacked with
              | .error err => (e1, .error err)
              | .ok e2 => (e2.lock_account account_id, .ok ())
        | none => (e, .error (.AccountNotFound account_id))

end PaymentEngine

/-- Lookup of the stored transaction under an account (the composite of
the two map lookups used throughout `src/payments_engine.rs`). -/
def getTx (e : PaymentEngine) (account_id tx_id : Nat) : Option Transaction :=
  match e.transactions account_id with
  | none => none
  | some bucket => bucket tx_id

/-- One input event, as dispatched by `process_entry` in
`src/processor.rs`; deposits and withdrawals carry an amount, the
dispute-lifecycle events do not. -/
inductive Event where
  | deposit (account_id tx_id : Nat) (amount : ℚ)
  | withdrawal (account_id tx_id : Nat) (amount : ℚ)
  | dispute (account_id tx_id : Nat)
  | resolve (account_id tx_id : Nat)
  | chargeback (account_id tx_id : Nat)
deriving DecidableEq, Repr

/-- The account an event targets. -/
def Event.account : Event → Nat
  | .deposit a _ _ => a
  | .withdrawal a _ _ => a
  | .dispute a _ => a
  | .resolve a _ => a
  | .chargeback a _ => a

/-- `process_entry` of `src/processor.rs`: dispatch one event to the
engine.  Deposits and withdrawals are converted to a `Transaction` with
status `Completed`, as in the `TryFrom` conversion of
`src/transaction.rs`. -/
def stepE (e : PaymentEngine) : Event → PaymentEngine × Except PaymentError Unit
  | .deposit a t amt =>
      e.process_transaction ⟨.Deposit, a, t, amt, .Completed⟩
  | .withdrawal a t amt =>
      e.process_transaction ⟨.Withdrawal, a, t, amt, .Completed⟩
  | .dispute a t => e.process_dispute a t
  | .resolve a t => e.process_resolve a t
  | .chargeback a t => e.process_chargeback a t

/-- Engine states reachable from the empty engine by any sequence of the
five operations (failures included: a failing event keeps the state it
left behind, exactly as `process_stream` keeps going after an error). -/
inductive Reachable : PaymentEngine → Prop where
  | base : Reachable PaymentEngine.new
  | step (e : PaymentEngine) (ev : Event) : Reachable e → Reachable (stepE e ev).1

/-- Per-account balance invariant. -/
def AccInv (acc : Account) : Prop :=
  acc.total = acc.available + acc.held ∧ 0 ≤ acc.available ∧ 0 ≤ acc.held

/-- Engine-wide balance invariant. -/
def Inv (e : PaymentEngine) : Prop :=
  ∀ a acc, e.accounts a = some acc → AccInv acc

namespace PaymentEngine

theorem is_locked_of_some {e : PaymentEngine} {a : Nat} {acc : Account}
    (h : e.accounts a = some acc) : e.is_account_locked a = acc.locked := by
  unfold is_account_locked
  rw [h]

theorem is_locked_of_none {e : PaymentEngine} {a : Nat}
    (h : e.accounts a = none) : e.is_account_locked a = false := by
  unfold is_account_locked
  rw [h]

theorem locked_exists {e : PaymentEngine} {a : Nat}
    (h : e.is_account_locked a = true) : ∃ acc, e.accounts a = some acc ∧ acc.locked = true := by
  unfold is_account_locked at h
  cases hacc : e.accounts a with
  | none => rw [hacc] at h; exact absurd h (by simp)
  | some acc => rw [hacc] at h; exact ⟨acc, rfl, h⟩

theorem goc_of_some {e : PaymentEngine} {a : Nat} {acc : Account}
    (h : e.accounts a = some acc) : e.get_or_create_account a = (e, acc) := by
  unfold get_or_create_account
  rw [h]


theorem goc_transactions (e : PaymentEngine) (a : Nat) :
    (e.get_or_create_account a).1.transactions = e.transactions := by
  unfold get_or_create_account
  cases e.accounts a <;> rfl

theorem goc_accounts_self (e : PaymentEngine) (a : Nat) :
    (e.get_or_create_account a).1.accounts a = some (e.get_or_create_account a).2 := by
  unfold get_or_create_account
  cases h : e.accounts a <;> simp [h]

theorem goc_locked (e : PaymentEngine) (a : Nat) :
    (e.get_or_create_account a).1.is_account_locked a = e.is_account_locked a := by
  unfold get_or_create_account is_account_locked
  cases h : e.accounts a <;> simp [h, freshAccount]

theorem goc_check (e : PaymentEngine) (a k t : Nat) :
    (e.get_or_create_account a).1.check_transaction k t = e.check_transaction k t := by
  unfold check_transaction
  rw [goc_transactions]

end PaymentEngine

/-- The account obtained from `acc` by adding the three deltas of one
`update_account_balance` call. -/
def applyDeltas (acc : Account) (da dh dt : ℚ) : Account :=
  { acc with
    available := acc.available + da
    held := acc.held + dh
    total := acc.total + dt }

/-- `e` with the entry of account `a` overwritten by `acc`. -/
def withAccount (e : PaymentEngine) (a : Nat) (acc : Account) : PaymentEngine :=
  { e with accounts := fun k => if k = a then some acc else e.accounts k }

/-- `e` with the transaction bucket of account `a` overwritten. -/
def withBucket (e : PaymentEngine) (a : Nat) (bucket : Nat → Option Transaction) :
    PaymentEngine :=
  { e with transactions := fun k => if k = a then some bucket else e.transactions k }

/-- The bucket obtained from `bucket` by overwriting slot `t` with the
transaction `tx` carrying status `s`. -/
def bucketSet (bucket : Nat → Option Transaction) (t : Nat) (tx : Transaction)
    (s : TransactionStatus) : Nat → Option Transaction :=
  fun j => if j = t then some { tx with status := s } else bucket j

theorem withAccount_self (e : PaymentEngine) (a : Nat) (acc : Account) :
    (withAccount e a acc).accounts a = some acc := by
  show (if a = a then some acc else e.accounts a) = some acc
  rw [if_pos rfl]

theorem withAccount_other {e : PaymentEngine} {a k : Nat} (acc : Account) (h : k ≠ a) :
    (withAccount e a acc).accounts k = e.accounts k := by
  show (if k = a then some acc else e.accounts k) = e.accounts k
  rw [if_neg h]

theorem withAccount_transactions (e : PaymentEngine) (a : Nat) (acc : Account) :
    (withAccount e a acc).transactions = e.transactions := rfl

theorem withBucket_accounts (e : PaymentEngine) (a : Nat)
    (bucket : Nat → Option Transaction) : (withBucket e a bucket).accounts = e.accounts := rfl

theorem withBucket_self (e : PaymentEngine) (a : Nat) (bucket : Nat → Option Transaction) :
    (withBucket e a bucket).transactions a = some bucket := by
  show (if a = a then some bucket else e.transactions a) = some bucket
  rw [if_pos rfl]

theorem bucketSet_self (bucket : Nat → Option Transaction) (t : Nat) (tx : Transaction)
    (s : TransactionStatus) : bucketSet bucket t tx s t = some { tx with status := s } := by
  show (if t = t then some { tx with status := s } else bucket t) = some { tx with status := s }
  rw [if_pos rfl]

namespace PaymentEngine

theorem update_balance_err {e : PaymentEngine} {a : Nat} {acc : Account} {da dh dt : ℚ}
    (ha : e.accounts a = some acc)
    (h : acc.available + da < 0 ∨ acc.held + dh < 0 ∨ acc.total + dt < 0) :
    e.update_account_balance a da dh dt = .error .InsufficientFunds := by
  simp only [update_account_balance, ha, if_pos h]

theorem goc_of_none {e : PaymentEngine} {a : Nat}
    (h : e.accounts a = none) :
    e.get_or_create_account a = (withAccount e a (freshAccount a), freshAccount a) := by
  simp only [get_or_create_account, h, withAccount]

theorem update_balance_ok {e : PaymentEngine} {a : Nat} {acc : Account} {da dh dt : ℚ}
    (ha : e.accounts a = some acc)
    (h1 : 0 ≤ acc.available + da) (h2 : 0 ≤ acc.held + dh) (h3 : 0 ≤ acc.total + dt) :
    e.update_account_balance a da dh dt = .ok (withAccount e a (applyDeltas acc da dh dt)) := by
  simp only [update_account_balance, ha, not_lt.mpr h1, not_lt.mpr h2, not_lt.mpr h3,
    or_self, if_false, withAccount, applyDeltas]

theorem update_balance_ok_inv {e e1 : PaymentEngine} {a : Nat} {da dh dt : ℚ}
    (hok : e.update_account_balance a da dh dt = .ok e1) :
    ∃ acc, e.accounts a = some acc ∧
      0 ≤ acc.available + da ∧ 0 ≤ acc.held + dh ∧ 0 ≤ acc.total + dt ∧
      e1 = withAccount e a (applyDeltas acc da dh dt) := by
  unfold update_account_balance at hok
  cases ha : e.accounts a with
  | none => rw [ha] at hok; exact Except.noConfusion hok
  | some acc =>
    simp only [ha] at hok
    by_cases hc : acc.available + da < 0 ∨ acc.held + dh < 0 ∨ acc.total + dt < 0
    · rw [if_pos hc] at hok; exact Except.noConfusion hok
    · simp only [if_neg hc, Except.ok.injEq] at hok
      push_neg at hc
      refine ⟨acc, rfl, hc.1, hc.2.1, hc.2.2, ?_⟩
      rw [← hok]
      rfl

theorem update_balance_transactions {e e1 : PaymentEngine} {a : Nat} {da dh dt : ℚ}
    (hok : e.update_account_balance a da dh dt = .ok e1) :
    e1.transactions = e.transactions := by
  obtain ⟨acc, _, _, _, _, he1⟩ := update_balance_ok_inv hok
  rw [he1]
  rfl

theorem insert_transaction_accounts (e : PaymentEngine) (t : Transaction) :
    (e.insert_transaction t).accounts = e.accounts := rfl

theorem update_status_ok {e : PaymentEngine} {a t : Nat}
    {bucket : Nat → Option Transaction} {tx : Transaction} {s : TransactionStatus}
    (hb : e.transactions a = some bucket) (hbt : bucket t = some tx) :
    e.update_transaction_status a t s = .ok (withBucket e a (bucketSet bucket t tx s)) := by
  simp only [update_transaction_status, hb, hbt, withBucket, bucketSet]
  rfl

theorem update_status_ok_inv {e e1 : PaymentEngine} {a t : Nat} {s : TransactionStatus}
    (hok : e.update_transaction_status a t s = .ok e1) :
    ∃ bucket tx, e.transactions a = some bucket ∧ bucket t = some tx ∧
      e1 = withBucket e a (bucketSet bucket t tx s) := by
  unfold update_transaction_status at hok
  cases hb : e.transactions a with
  | none => rw [hb] at hok; exact Except.noConfusion hok
  | some bucket =>
    simp only [hb] at hok
    cases hbt : bucket t with
    | none => simp only [hbt] at hok; exact Except.noConfusion hok
    | some tx =>
      simp only [hbt, Except.ok.injEq] at hok
      refine ⟨bucket, tx, rfl, hbt, ?_⟩
      rw [← hok]
      rfl

theorem update_status_accounts {e e1 : PaymentEngine} {a t : Nat} {s : TransactionStatus}
    (hok : e.update_transaction_status a t s = .ok e1) :
    e1.accounts = e.accounts := by
  obtain ⟨bucket, tx, _, _, he1⟩ := update_status_ok_inv hok
  rw [he1]
  rfl

theorem lock_account_transactions (e : PaymentEngine) (a : Nat) :
    (e.lock_account a).transactions = e.transactions := by
  unfold lock_account
  cases e.accounts a <;> rfl

theorem lock_account_of_some {e : PaymentEngine} {a : Nat} {acc : Account}
    (h : e.accounts a = some acc) :
    e.lock_account a = withAccount e a { acc with locked := true } := by
  simp only [lock_account, h, withAccount]

theorem get_deposit_ok {e : PaymentEngine} {a t : Nat}
    {bucket : Nat → Option Transaction} {tx : Transaction}
    (hb : e.transactions a = some bucket) (hbt : bucket t = some tx)
    (hty : tx.tx_type = TransactionType.Deposit) :
    e.get_deposit_transaction_status a t = .ok tx := by
  simp only [get_deposit_transaction_status, hb, hbt, hty]
  simp

theorem get_deposit_ok_inv {e : PaymentEngine} {a t : Nat} {tx : Transaction}
    (hok : e.get_deposit_transaction_status a t = .ok tx) :
    ∃ bucket, e.transactions a = some bucket ∧ bucket t = some tx ∧
      tx.tx_type = TransactionType.Deposit := by
  unfold get_deposit_transaction_status at hok
  cases hb : e.transactions a with
  | none => rw [hb] at hok; exact Except.noConfusion hok
  | some bucket =>
    simp only [hb] at hok
    cases hbt : bucket t with
    | none => simp only [hbt] at hok; exact Except.noConfusion hok
    | some t0 =>
      simp only [hbt] at hok
      by_cases hty : t0.tx_type ≠ TransactionType.Deposit
      · rw [if_pos hty] at hok; exact Except.noConfusion hok
      · simp only [if_neg hty, Except.ok.injEq] at hok
        push_neg at hty
        refine ⟨bucket, rfl, ?_, ?_⟩
        · rw [hbt, hok]
        · rw [← hok]; exact hty

end PaymentEngine

theorem accInv_fresh (a : Nat) : AccInv (PaymentEngine.freshAccount a) := by
  unfold AccInv PaymentEngine.freshAccount
  norm_num

theorem inv_withAccount {e : PaymentEngine} {a : Nat} {acc : Account}
    (h : Inv e) (hacc : AccInv acc) : Inv (withAccount e a acc) := by
  intro k acc' hk
  have hk2 : (if k = a then some acc else e.accounts k) = some acc' := hk
  by_cases hka : k = a
  · rw [if_pos hka] at hk2
    cases hk2
    exact hacc
  · rw [if_neg hka] at hk2
    exact h k acc' hk2

theorem inv_of_accounts_eq {e e1 : PaymentEngine} (h : Inv e)
    (heq : e1.accounts = e.accounts) : Inv e1 := by
  intro k acc hk
  rw [heq] at hk
  exact h k acc hk

theorem inv_update_balance {e e1 : PaymentEngine} {a : Nat} {da dh dt : ℚ}
    (h : Inv e) (hsum : dt = da + dh)
    (hok : e.update_account_balance a da dh dt = .ok e1) : Inv e1 := by
  obtain ⟨acc, ha, h1, h2, h3, he1⟩ := PaymentEngine.update_balance_ok_inv hok
  subst he1
  apply inv_withAccount h
  obtain ⟨ht, hav, hh⟩ := h a acc ha
  refine ⟨?_, h1, h2⟩
  show acc.total + dt = (acc.available + da) + (acc.held + dh)
  rw [ht, hsum]
  ring

theorem inv_goc {e : PaymentEngine} (h : Inv e) (a : Nat) :
    Inv (e.get_or_create_account a).1 := by
  unfold PaymentEngine.get_or_create_account
  cases ha : e.accounts a with
  | some acc => exact h
  | none => exact inv_withAccount h (accInv_fresh a)

theorem inv_insert {e : PaymentEngine} (h : Inv e) (t : Transaction) :
    Inv (e.insert_transaction t) :=
  inv_of_accounts_eq h (PaymentEngine.insert_transaction_accounts e t)

theorem inv_update_status {e e1 : PaymentEngine} {a t : Nat} {s : TransactionStatus}
    (h : Inv e) (hok : e.update_transaction_status a t s = .ok e1) : Inv e1 :=
  inv_of_accounts_eq h (PaymentEngine.update_status_accounts hok)

theorem inv_lock {e : PaymentEngine} (h : Inv e) (a : Nat) :
    Inv (e.lock_account a) := by
  unfold PaymentEngine.lock_account
  cases ha : e.accounts a with
  | none => exact h
  | some acc =>
    apply inv_withAccount h
    obtain ⟨ht, hav, hh⟩ := h a acc ha
    exact ⟨ht, hav, hh⟩

theorem inv_process_transaction {e : PaymentEngine} (h : Inv e) (t : Transaction) :
    Inv (e.process_transaction t).1 := by
  have h1 : Inv (e.get_or_create_account t.account_id).1 := inv_goc h t.account_id
  obtain ⟨ty, a, tid, amt, st⟩ := t
  cases ty with
  | Deposit =>
    simp only [PaymentEngine.process_transaction]
    split
    · exact h1
    · split
      · exact h1
      · split
        · exact h1
        · rename_i e2 hok
          exact inv_insert (inv_update_balance h1 (by ring) hok) _
  | Withdrawal =>
    simp only [PaymentEngine.process_transaction]
    split
    · exact h1
    · split
      · exact h1
      · split
        · exact h1
        · rename_i da dh dt heq
          split at heq
          · simp only [Except.ok.injEq, Prod.mk.injEq] at heq
            obtain ⟨hda, hdh, hdt⟩ := heq
            split
            · exact h1
            · rename_i e2 hok
              refine inv_insert (inv_update_balance h1 ?_ hok) _
              rw [← hda, ← hdh, ← hdt]
              ring
          · exact Except.noConfusion heq

theorem inv_process_dispute {e : PaymentEngine} (h : Inv e) (a t : Nat) :
    Inv (e.process_dispute a t).1 := by
  unfold PaymentEngine.process_dispute
  split
  · exact h
  · split
    · exact h
    · split
      · dsimp only
        split
        · split
          · exact h
          · split
            · exact h
            · rename_i e1 hok
              split
              · exact inv_update_balance h (by ring) hok
              · rename_i e2 hok2
                exact inv_update_status (inv_update_balance h (by ring) hok) hok2
        · exact h
      · exact h

theorem inv_process_resolve {e : PaymentEngine} (h : Inv e) (a t : Nat) :
    Inv (e.process_resolve a t).1 := by
  unfold PaymentEngine.process_resolve
  split
  · exact h
  · split
    · exact h
    · split
      · split
        · exact h
        · exact h
      · dsimp only
        split
        · split
          · exact h
          · split
            · exact h
            · rename_i e1 hok
              split
              · exact inv_update_balance h (by ring) hok
              · rename_i e2 hok2
                exact inv_update_status (inv_update_balance h (by ring) hok) hok2
        · exact h

theorem inv_process_chargeback {e : PaymentEngine} (h : Inv e) (a t : Nat) :
    Inv (e.process_chargeback a t).1 := by
  unfold PaymentEngine.process_chargeback
  split
  · exact h
  · split
    · exact h
    · split
      · split
        · exact h
        · exact h
      · dsimp only
        split
        · split
          · exact h
          · split
            · exact h
            · rename_i e1 hok
              split
              · exact inv_update_balance h (by ring) hok
              · rename_i e2 hok2
                exact inv_lock (inv_update_status (inv_update_balance h (by ring) hok) hok2) a
        · exact h

theorem inv_stepE {e : PaymentEngine} (h : Inv e) (ev : Event) :
    Inv (stepE e ev).1 := by
  cases ev with
  | deposit a t amt => exact inv_process_transaction h _
  | withdrawal a t amt => exact inv_process_transaction h _
  | dispute a t => exact inv_process_dispute h a t
  | resolve a t => exact inv_process_resolve h a t
  | chargeback a t => exact inv_process_chargeback h a t

theorem inv_new : Inv PaymentEngine.new := by
  intro a acc h
  exact Option.noConfusion h

theorem reachable_inv {e : PaymentEngine} (h : Reachable e) : Inv e := by
  induction h with
  | base => exact inv_new
  | step e ev _ ih => exact inv_stepE ih ev

/-! Concrete example states used by witnesses and counterexamples. -/

/-- The engine after `deposit(1, 1, 100)`. -/
def egDeposit : PaymentEngine := (stepE PaymentEngine.new (.deposit 1 1 100)).1

theorem egDeposit_reachable : Reachable egDeposit :=
  Reachable.step PaymentEngine.new (.deposit 1 1 100) Reachable.base

theorem egDeposit_accounts : egDeposit.accounts 1 = some ⟨1, 100, 0, 100, false⟩ := by
  norm_num [egDeposit, stepE, PaymentEngine.process_transaction,
    PaymentEngine.get_or_create_account, PaymentEngine.is_account_locked,
    PaymentEngine.check_transaction, PaymentEngine.update_account_balance,
    PaymentEngine.insert_transaction, PaymentEngine.new, PaymentEngine.freshAccount]

/-- The engine after `deposit(1, 1, 100); deposit(1, 2, 1); dispute(1, 2);
chargeback(1, 2)`: account 1 is locked with balances `100 / 0 / 100`, and
transaction 1 is still a Completed deposit. -/
def egLocked : PaymentEngine :=
  (stepE (stepE (stepE egDeposit (.deposit 1 2 1)).1 (.dispute 1 2)).1 (.chargeback 1 2)).1

theorem egLocked_reachable : Reachable egLocked :=
  Reachable.step _ _ (Reachable.step _ _ (Reachable.step _ _ egDeposit_reachable))

theorem egLocked_accounts : egLocked.accounts 1 = some ⟨1, 100, 0, 100, true⟩ := by
  norm_num [egLocked, egDeposit, stepE, PaymentEngine.process_transaction,
    PaymentEngine.get_or_create_account, PaymentEngine.is_account_locked,
    PaymentEngine.check_transaction, PaymentEngine.update_account_balance,
    PaymentEngine.insert_transaction, PaymentEngine.new, PaymentEngine.freshAccount,
    PaymentEngine.process_dispute, PaymentEngine.get_deposit_transaction_status,
    PaymentEngine.update_transaction_status, PaymentEngine.process_chargeback,
    PaymentEngine.lock_account]

theorem egLocked_tx1 : getTx egLocked 1 1 =
    some ⟨.Deposit, 1, 1, 100, .Completed⟩ := by
  norm_num [egLocked, egDeposit, getTx, stepE, PaymentEngine.process_transaction,
    PaymentEngine.get_or_create_account, PaymentEngine.is_account_locked,
    PaymentEngine.check_transaction, PaymentEngine.update_account_balance,
    PaymentEngine.insert_transaction, PaymentEngine.new, PaymentEngine.freshAccount,
    PaymentEngine.process_dispute, PaymentEngine.get_deposit_transaction_status,
    PaymentEngine.update_transaction_status, PaymentEngine.process_chargeback,
    PaymentEngine.lock_account]

/-- The engine after `deposit(1, 1, 10); deposit(1, 2, -5)`: account 1 has
`available = total = 5`, `held = 0`, and transaction 2 is a Completed
deposit with the negative amount `-5`. -/
def egNeg : PaymentEngine :=
  (stepE (stepE PaymentEngine.new (.deposit 1 1 10)).1 (.deposit 1 2 (-5))).1

theorem egNeg_reachable : Reachable egNeg :=
  Reachable.step _ _ (Reachable.step _ _ Reachable.base)

theorem egNeg_accounts : egNeg.accounts 1 = some ⟨1, 5, 0, 5, false⟩ := by
  norm_num [egNeg, stepE, PaymentEngine.process_transaction,
    PaymentEngine.get_or_create_account, PaymentEngine.is_account_locked,
    PaymentEngine.check_transaction, PaymentEngine.update_account_balance,
    PaymentEngine.insert_transaction, PaymentEngine.new, PaymentEngine.freshAccount]

theorem egNeg_tx2 : getTx egNeg 1 2 = some ⟨.Deposit, 1, 2, -5, .Completed⟩ := by
  norm_num [egNeg, getTx, stepE, PaymentEngine.process_transaction,
    PaymentEngine.get_or_create_account, PaymentEngine.is_account_locked,
    PaymentEngine.check_transaction, PaymentEngine.update_account_balance,
    PaymentEngine.insert_transaction, PaymentEngine.new, PaymentEngine.freshAccount]

theorem egDeposit_tx1 : getTx egDeposit 1 1 = some ⟨.Deposit, 1, 1, 100, .Completed⟩ := by
  norm_num [egDeposit, getTx, stepE, PaymentEngine.process_transaction,
    PaymentEngine.get_or_create_account, PaymentEngine.is_account_locked,
    PaymentEngine.check_transaction, PaymentEngine.update_account_balance,
    PaymentEngine.insert_transaction, PaymentEngine.new, PaymentEngine.freshAccount]

/-- The engine after `deposit(1, 1, 100); dispute(1, 1)`: account 1 has
`available = 0`, `held = total = 100`, and transaction 1 is Disputed. -/
def egDisputed : PaymentEngine := (stepE egDeposit (.dispute 1 1)).1

theorem egDisputed_reachable : Reachable egDisputed :=
  Reachable.step _ _ egDeposit_reachable

theorem egDisputed_accounts : egDisputed.accounts 1 = some ⟨1, 0, 100, 100, false⟩ := by
  norm_num [egDisputed, egDeposit, stepE, PaymentEngine.process_transaction,
    PaymentEngine.get_or_create_account, PaymentEngine.is_account_locked,
    PaymentEngine.check_transaction, PaymentEngine.update_account_balance,
    PaymentEngine.insert_transaction, PaymentEngine.new, PaymentEngine.freshAccount,
    PaymentEngine.process_dispute, PaymentEngine.get_deposit_transaction_status,
    PaymentEngine.update_transaction_status]

theorem egDisputed_tx1 : getTx egDisputed 1 1 = some ⟨.Deposit, 1, 1, 100, .Disputed⟩ := by
  norm_num [egDisputed, egDeposit, getTx, stepE, PaymentEngine.process_transaction,
    PaymentEngine.get_or_create_account, PaymentEngine.is_account_locked,
    PaymentEngine.check_transaction, PaymentEngine.update_account_balance,
    PaymentEngine.insert_transaction, PaymentEngine.new, PaymentEngine.freshAccount,
    PaymentEngine.process_dispute, PaymentEngine.get_deposit_transaction_status,
    PaymentEngine.update_transaction_status]

/-- Splitting a `getTx` fact into the two underlying map lookups. -/
theorem getTx_split {e : PaymentEngine} {a t : Nat} {tx : Transaction}
    (htx : getTx e a t = some tx) :
    ∃ bucket, e.transactions a = some bucket ∧ bucket t = some tx := by
  unfold getTx at htx
  cases hbk : e.transactions a with
  | none => rw [hbk] at htx; exact Option.noConfusion htx
  | some bucket => rw [hbk] at htx; exact ⟨bucket, rfl, htx⟩

theorem getTx_insert (e : PaymentEngine) (tx : Transaction) :
    getTx (e.insert_transaction tx) tx.account_id tx.tx_id = some tx := by
  unfold getTx PaymentEngine.insert_transaction
  simp

theorem getTx_withAccount (e : PaymentEngine) (a : Nat) (acc : Account) (k t : Nat) :
    getTx (withAccount e a acc) k t = getTx e k t := rfl

theorem getTx_withBucket_set (e : PaymentEngine) (a t : Nat)
    (bucket : Nat → Option Transaction) (tx : Transaction) (s : TransactionStatus) :
    getTx (withBucket e a (bucketSet bucket t tx s)) a t = some { tx with status := s } := by
  unfold getTx
  rw [withBucket_self]
  exact bucketSet_self bucket t tx s

theorem check_of_getTx {e : PaymentEngine} {a t : Nat} {tx : Transaction}
    (h : getTx e a t = some tx) : e.check_transaction a t = true := by
  obtain ⟨bucket, hb, hbt⟩ := getTx_split h
  unfold PaymentEngine.check_transaction
  simp [hb, hbt]

theorem process_transaction_ok_inv {e : PaymentEngine} {tx : Transaction}
    (h : (e.process_transaction tx).2 = .ok ()) :
    ∃ acc da dh dt,
      (e.get_or_create_account tx.account_id).1.accounts tx.account_id = some acc ∧
      acc.locked = false ∧
      (e.process_transaction tx).1 =
        (withAccount (e.get_or_create_account tx.account_id).1 tx.account_id
          (applyDeltas acc da dh dt)).insert_transaction tx := by
  unfold PaymentEngine.process_transaction at h
  dsimp only at h
  split at h
  · exact Except.noConfusion h
  · rename_i hlk
    split at h
    · exact Except.noConfusion h
    · rename_i hck
      split at h
      · exact Except.noConfusion h
      · rename_i da dh dt heq
        split at h
        · exact Except.noConfusion h
        · rename_i e2 hok
          obtain ⟨acc, haccs, h1, h2, h3, he2⟩ := PaymentEngine.update_balance_ok_inv hok
          refine ⟨acc, da, dh, dt, haccs, ?_, ?_⟩
          · rw [PaymentEngine.is_locked_of_some haccs] at hlk
            simpa using hlk
          · unfold PaymentEngine.process_transaction
            dsimp only
            rw [if_neg hlk, if_neg hck]
            simp only [heq, hok, he2]

theorem process_transaction_ok_state {e : PaymentEngine} {tx : Transaction}
    (h : (e.process_transaction tx).2 = .ok ()) :
    ∃ acc2 : Account,
      (e.process_transaction tx).1.accounts tx.account_id = some acc2 ∧
      acc2.locked = false ∧
      getTx (e.process_transaction tx).1 tx.account_id tx.tx_id = some tx := by
  obtain ⟨acc, da, dh, dt, haccs, hl, hf⟩ := process_transaction_ok_inv h
  refine ⟨applyDeltas acc da dh dt, ?_, hl, ?_⟩
  · rw [hf, PaymentEngine.insert_transaction_accounts, withAccount_self]
  · rw [hf]
    exact getTx_insert _ _

theorem process_dispute_ok_inv {e : PaymentEngine} {a t : Nat}
    (h : (e.process_dispute a t).2 = .ok ()) :
    ∃ acc bucket tx,
      e.accounts a = some acc ∧ acc.locked = false ∧
      e.transactions a = some bucket ∧ bucket t = some tx ∧
      tx.tx_type = TransactionType.Deposit ∧ tx.status = TransactionStatus.Completed ∧
      (e.process_dispute a t).1 =
        withBucket (withAccount e a (applyDeltas acc (-tx.amount) tx.amount 0)) a
          (bucketSet bucket t tx TransactionStatus.Disputed) := by
  unfold PaymentEngine.process_dispute at h
  split at h
  · exact Except.noConfusion h
  · rename_i hlk
    split at h
    · exact Except.noConfusion h
    · rename_i existing hget
      split at h
      · rename_i hst
        dsimp only at h
        split at h
        · rename_i acc hacc
          split at h
          · exact Except.noConfusion h
          · rename_i havail
            split at h
            · exact Except.noConfusion h
            · rename_i e1 hok
              split at h
              · exact Except.noConfusion h
              · rename_i e2 hok2
                obtain ⟨bucket, hb, hbt, hty⟩ := PaymentEngine.get_deposit_ok_inv hget
                obtain ⟨acc0, haccs0, h1, h2, h3, he1⟩ :=
                  PaymentEngine.update_balance_ok_inv hok
                obtain rfl : acc0 = acc := by
                  rw [haccs0] at hacc
                  exact Option.some.inj hacc
                obtain ⟨bucket2, tx0, hb2, hbt2, he2⟩ :=
                  PaymentEngine.update_status_ok_inv hok2
                rw [he1, withAccount_transactions, hb] at hb2
                obtain rfl : bucket2 = bucket := (Option.some.inj hb2).symm
                rw [hbt] at hbt2
                obtain rfl : tx0 = existing := (Option.some.inj hbt2).symm
                refine ⟨acc0, bucket2, tx0, haccs0, ?_, hb, hbt, hty, hst, ?_⟩
                · rw [PaymentEngine.is_locked_of_some haccs0] at hlk
                  simpa using hlk
                · unfold PaymentEngine.process_dispute
                  rw [if_neg hlk]
                  simp only [hget, hst, eq_self_iff_true, if_true, haccs0,
                    if_neg havail, hok, hok2]
                  rw [he2, he1]
        · rename_i hacc
          exact Except.noConfusion h
      · exact Except.noConfusion h

theorem process_resolve_ok_inv {e : PaymentEngine} {a t : Nat}
    (h : (e.process_resolve a t).2 = .ok ()) :
    ∃ acc bucket tx,
      e.accounts a = some acc ∧ acc.locked = false ∧
      e.transactions a = some bucket ∧ bucket t = some tx ∧
      tx.tx_type = TransactionType.Deposit ∧ tx.status = TransactionStatus.Disputed ∧
      (e.process_resolve a t).1 =
        withBucket (withAccount e a (applyDeltas acc tx.amount (-tx.amount) 0)) a
          (bucketSet bucket t tx TransactionStatus.Resolved) := by
  unfold PaymentEngine.process_resolve at h
  split at h
  · exact Except.noConfusion h
  · rename_i hlk
    split at h
    · exact Except.noConfusion h
    · rename_i existing hget
      split at h
      · rename_i hne
        split at h
        · exact Except.noConfusion h
        · exact Except.noConfusion h
      · rename_i hne
        dsimp only at h
        split at h
        · rename_i acc hacc
          split at h
          · exact Except.noConfusion h
          · rename_i hheld
            split at h
            · exact Except.noConfusion h
            · rename_i e1 hok
              split at h
              · exact Except.noConfusion h
              · rename_i e2 hok2
                obtain ⟨bucket, hb, hbt, hty⟩ := PaymentEngine.get_deposit_ok_inv hget
                obtain ⟨acc0, haccs0, h1, h2, h3, he1⟩ :=
                  PaymentEngine.update_balance_ok_inv hok
                obtain rfl : acc0 = acc := by
                  rw [haccs0] at hacc
                  exact Option.some.inj hacc
                obtain ⟨bucket2, tx0, hb2, hbt2, he2⟩ :=
                  PaymentEngine.update_status_ok_inv hok2
                rw [he1, withAccount_transactions, hb] at hb2
                obtain rfl : bucket2 = bucket := (Option.some.inj hb2).symm
                rw [hbt] at hbt2
                obtain rfl : tx0 = existing := (Option.some.inj hbt2).symm
                have hst : tx0.status = TransactionStatus.Disputed := not_not.mp hne
                refine ⟨acc0, bucket2, tx0, haccs0, ?_, hb, hbt, hty, hst, ?_⟩
                · rw [PaymentEngine.is_locked_of_some haccs0] at hlk
                  simpa using hlk
                · unfold PaymentEngine.process_resolve
                  rw [if_neg hlk]
                  simp only [hget, if_neg hne, haccs0, if_neg hheld, hok, hok2]
                  rw [he2, he1]
        · rename_i hacc
          exact Except.noConfusion h

theorem process_chargeback_ok_locked {e : PaymentEngine} {a t : Nat}
    (h : (e.process_chargeback a t).2 = .ok ()) :
    (e.process_chargeback a t).1.is_account_locked a = true := by
  unfold PaymentEngine.process_chargeback at h
  split at h
  · exact Except.noConfusion h
  · rename_i hlk
    split at h
    · exact Except.noConfusion h
    · rename_i existing hget
      split at h
      · rename_i hne
        split at h
        · exact Except.noConfusion h
        · exact Except.noConfusion h
      · rename_i hne
        dsimp only at h
        split at h
        · rename_i acc hacc
          split at h
          · exact Except.noConfusion h
          · rename_i hheld
            split at h
            · exact Except.noConfusion h
            · rename_i e1 hok
              split at h
              · exact Except.noConfusion h
              · rename_i e2 hok2
                obtain ⟨acc0, haccs0, h1, h2, h3, he1⟩ :=
                  PaymentEngine.update_balance_ok_inv hok
                obtain ⟨bucket2, tx0, hb2, hbt2, he2⟩ :=
                  PaymentEngine.update_status_ok_inv hok2
                have hacc2 : e2.accounts a = some (applyDeltas acc0 0
                    (-existing.amount) (-existing.amount)) := by
                  rw [he2, withBucket_accounts, he1, withAccount_self]
                have hlock := PaymentEngine.lock_account_of_some hacc2
                unfold PaymentEngine.process_chargeback
                rw [if_neg hlk]
                simp only [hget, if_neg hne, hacc, if_neg hheld, hok, hok2]
                rw [hlock, PaymentEngine.is_locked_of_some (withAccount_self _ _ _)]
        · rename_i hacc
          exact Except.noConfusion h

/-- C1: every engine state reachable from the empty engine by any sequence
of the five operations has, for every account it stores,
`total = available + held`, `available ≥ 0` and `held ≥ 0`. -/
theorem C1_reachable_balance_invariant {e : PaymentEngine} (hr : Reachable e) :
    ∀ a acc, e.accounts a = some acc →
      acc.total = acc.available + acc.held ∧ 0 ≤ acc.available ∧ 0 ≤ acc.held :=
  fun a acc ha => reachable_inv hr a acc ha

theorem C1_reachable_balance_invariant_witness :
    (100 : ℚ) = 100 + 0 ∧ (0 : ℚ) ≤ 100 ∧ (0 : ℚ) ≤ 0 :=
  C1_reachable_balance_invariant egDeposit_reachable 1 ⟨1, 100, 0, 100, false⟩
    egDeposit_accounts

/-- C2: once an account is locked, any further event targeting that account
fails with `AccountLocked` and leaves the whole engine state (balances of
that account and every stored transaction status included) unchanged. -/
theorem C2_locked_account_frozen {e : PaymentEngine} {a : Nat} {acc : Account} (ev : Event)
    (ha : e.accounts a = some acc) (hl : acc.locked = true) (hev : ev.account = a) :
    (stepE e ev).1 = e ∧ (stepE e ev).2 = .error (.AccountLocked a) := by
  have hlk : e.is_account_locked a = true := by
    rw [PaymentEngine.is_locked_of_some ha]; exact hl
  cases ev with
  | deposit b t amt =>
    have hb : b = a := hev
    subst hb
    constructor <;>
      simp [stepE, PaymentEngine.process_transaction, PaymentEngine.goc_of_some ha, hlk]
  | withdrawal b t amt =>
    have hb : b = a := hev
    subst hb
    constructor <;>
      simp [stepE, PaymentEngine.process_transaction, PaymentEngine.goc_of_some ha, hlk]
  | dispute b t =>
    have hb : b = a := hev
    subst hb
    constructor <;> simp [stepE, PaymentEngine.process_dispute, hlk]
  | resolve b t =>
    have hb : b = a := hev
    subst hb
    constructor <;> simp [stepE, PaymentEngine.process_resolve, hlk]
  | chargeback b t =>
    have hb : b = a := hev
    subst hb
    constructor <;> simp [stepE, PaymentEngine.process_chargeback, hlk]

theorem C2_locked_account_frozen_witness :
    (stepE egLocked (.deposit 1 5 7)).1 = egLocked ∧
    (stepE egLocked (.deposit 1 5 7)).2 = .error (.AccountLocked 1) :=
  C2_locked_account_frozen (.deposit 1 5 7) egLocked_accounts rfl rfl

/-- C8: on a locked account every one of the five operations fails with
`AccountLocked`, whatever the other circumstances are; no hypothesis about
duplicate ids, stored transactions, statuses or balances is needed. -/
theorem C8_locked_check_first {e : PaymentEngine} {a : Nat}
    (hl : e.is_account_locked a = true) :
    (∀ tx : Transaction, tx.account_id = a →
        (e.process_transaction tx).2 = .error (.AccountLocked a)) ∧
    (∀ t, (e.process_dispute a t).2 = .error (.AccountLocked a)) ∧
    (∀ t, (e.process_resolve a t).2 = .error (.AccountLocked a)) ∧
    (∀ t, (e.process_chargeback a t).2 = .error (.AccountLocked a)) := by
  obtain ⟨acc, ha, hacc⟩ := PaymentEngine.locked_exists hl
  refine ⟨?_, ?_, ?_, ?_⟩
  · intro tx htx
    subst htx
    simp [PaymentEngine.process_transaction, PaymentEngine.goc_of_some ha, hl]
  · intro t
    simp [PaymentEngine.process_dispute, hl]
  · intro t
    simp [PaymentEngine.process_resolve, hl]
  · intro t
    simp [PaymentEngine.process_chargeback, hl]

theorem C8_locked_check_first_witness :
    (egLocked.process_dispute 1 1).2 = .error (.AccountLocked 1) :=
  (C8_locked_check_first
    (by rw [PaymentEngine.is_locked_of_some egLocked_accounts])).2.1 1

theorem dispute_state_of_no_account {e : PaymentEngine} {a : Nat}
    (ha : e.accounts a = none) (t : Nat) : (e.process_dispute a t).1 = e := by
  unfold PaymentEngine.process_dispute
  simp only [PaymentEngine.is_locked_of_none ha, Bool.false_eq_true, if_false]
  split
  · rfl
  · split
    · split
      · rename_i acc heq
        rw [ha] at heq
        exact Option.noConfusion heq
      · rfl
    · rfl

theorem resolve_state_of_no_account {e : PaymentEngine} {a : Nat}
    (ha : e.accounts a = none) (t : Nat) : (e.process_resolve a t).1 = e := by
  unfold PaymentEngine.process_resolve
  simp only [PaymentEngine.is_locked_of_none ha, Bool.false_eq_true, if_false]
  split
  · rfl
  · split
    · split
      · rfl
      · rfl
    · split
      · rename_i acc heq
        rw [ha] at heq
        exact Option.noConfusion heq
      · rfl

theorem chargeback_state_of_no_account {e : PaymentEngine} {a : Nat}
    (ha : e.accounts a = none) (t : Nat) : (e.process_chargeback a t).1 = e := by
  unfold PaymentEngine.process_chargeback
  simp only [PaymentEngine.is_locked_of_none ha, Bool.false_eq_true, if_false]
  split
  · rfl
  · split
    · split
      · rfl
      · rfl
    · split
      · rename_i acc heq
        rw [ha] at heq
        exact Option.noConfusion heq
      · rfl

theorem process_transaction_creates {e : PaymentEngine} (tx : Transaction)
    (ha : e.accounts tx.account_id = none) :
    ((e.process_transaction tx).2.isOk = false →
      (e.process_transaction tx).1.accounts tx.account_id =
        some (PaymentEngine.freshAccount tx.account_id)) ∧
    (e.process_transaction tx).1.accounts tx.account_id ≠ none := by
  unfold PaymentEngine.process_transaction
  rw [PaymentEngine.goc_of_none ha]
  dsimp only
  rw [PaymentEngine.is_locked_of_some (withAccount_self _ _ _)]
  simp only [PaymentEngine.freshAccount, Bool.false_eq_true, if_false]
  split
  · exact ⟨fun _ => withAccount_self _ _ _, by rw [withAccount_self]; exact Option.noConfusion⟩
  · split
    · exact ⟨fun _ => withAccount_self _ _ _, by rw [withAccount_self]; exact Option.noConfusion⟩
    · split
      · exact ⟨fun _ => withAccount_self _ _ _, by rw [withAccount_self]; exact Option.noConfusion⟩
      · rename_i e2 hok
        obtain ⟨acc, hacc, h1, h2, h3, he2⟩ := PaymentEngine.update_balance_ok_inv hok
        subst he2
        constructor
        · intro hfalse
          exact absurd hfalse (by simp [Except.isOk, Except.toBool])
        · rw [PaymentEngine.insert_transaction_accounts, withAccount_self]
          exact Option.noConfusion

/-- C9: a deposit or withdrawal naming an absent account creates it with
zero balances and unlocked status, and when the event then fails the
created account is still the fresh zero account; dispute, resolve and
chargeback never create an account. -/
theorem C9_account_creation {e : PaymentEngine} {a : Nat} (ha : e.accounts a = none) :
    (∀ tx : Transaction, tx.account_id = a →
      ((e.process_transaction tx).2.isOk = false →
        (e.process_transaction tx).1.accounts a =
          some (PaymentEngine.freshAccount a)) ∧
      (e.process_transaction tx).1.accounts a ≠ none) ∧
    (∀ t, (e.process_dispute a t).1.accounts a = none) ∧
    (∀ t, (e.process_resolve a t).1.accounts a = none) ∧
    (∀ t, (e.process_chargeback a t).1.accounts a = none) := by
  refine ⟨?_, ?_, ?_, ?_⟩
  · intro tx htx
    subst htx
    exact process_transaction_creates tx ha
  · intro t
    rw [dispute_state_of_no_account ha t]
    exact ha
  · intro t
    rw [resolve_state_of_no_account ha t]
    exact ha
  · intro t
    rw [chargeback_state_of_no_account ha t]
    exact ha

/-- C3 counterexample: in the reachable state reached by
`deposit(1, 1, 10); deposit(1, 2, -5)`, transaction 2 is a stored Completed
deposit and the account has `available = 5 ≥ amount = -5`, yet
`dispute(1, 2)` does not succeed: it fails with `InsufficientFunds`
(because holding the negative amount would drive `held` below zero), so
the claim as stated is false. -/
theorem C3_dispute_counterexample :
    Reachable egNeg ∧
    getTx egNeg 1 2 = some ⟨.Deposit, 1, 2, -5, .Completed⟩ ∧
    egNeg.accounts 1 = some ⟨1, 5, 0, 5, false⟩ ∧
    ((-5 : ℚ) ≤ 5) ∧
    (egNeg.process_dispute 1 2).2 = .error .InsufficientFunds ∧
    (egNeg.process_dispute 1 2).2 ≠ .ok () := by
  have hmain : (egNeg.process_dispute 1 2).2 = .error .InsufficientFunds := by
    norm_num [egNeg, stepE, PaymentEngine.process_transaction,
      PaymentEngine.get_or_create_account, PaymentEngine.is_account_locked,
      PaymentEngine.check_transaction, PaymentEngine.update_account_balance,
      PaymentEngine.insert_transaction, PaymentEngine.new, PaymentEngine.freshAccount,
      PaymentEngine.process_dispute, PaymentEngine.get_deposit_transaction_status,
      PaymentEngine.update_transaction_status]
  refine ⟨egNeg_reachable, egNeg_tx2, egNeg_accounts, by norm_num, hmain, ?_⟩
  rw [hmain]
  exact fun hcontra => Except.noConfusion hcontra

/-- C3 (amended): in a reachable state, for a dispute on an unlocked
account whose stored transaction is a Completed deposit with a
non-negative amount: if `available ≥ amount` the dispute succeeds, moves
`amount` from available to held leaving total unchanged, and marks the
transaction Disputed; if `available < amount` it fails with
`InsufficientHoldFunds` and leaves the engine unchanged. -/
theorem C3_dispute_of_completed_deposit {e : PaymentEngine} {a t : Nat}
    {acc : Account} {tx : Transaction}
    (hr : Reachable e) (ha : e.accounts a = some acc) (hl : acc.locked = false)
    (htx : getTx e a t = some tx) (hty : tx.tx_type = .Deposit)
    (hst : tx.status = .Completed) (hamt : 0 ≤ tx.amount) :
    (tx.amount ≤ acc.available →
      (e.process_dispute a t).2 = .ok () ∧
      (e.process_dispute a t).1.accounts a =
        some { acc with
          available := acc.available - tx.amount
          held := acc.held + tx.amount } ∧
      getTx (e.process_dispute a t).1 a t = some { tx with status := .Disputed }) ∧
    (acc.available < tx.amount →
      (e.process_dispute a t).2 = .error .InsufficientHoldFunds ∧
      (e.process_dispute a t).1 = e) := by
  obtain ⟨htot, hav, hheld⟩ := reachable_inv hr a acc ha
  have hlk : e.is_account_locked a = false := by
    rw [PaymentEngine.is_locked_of_some ha]; exact hl
  obtain ⟨bucket, hb, hbt⟩ := getTx_split htx
  have hget := PaymentEngine.get_deposit_ok hb hbt hty
  constructor
  · intro hle
    have h1 : 0 ≤ acc.available + -tx.amount := by linarith
    have h2 : 0 ≤ acc.held + tx.amount := by linarith
    have h3 : 0 ≤ acc.total + 0 := by rw [htot]; linarith
    have hub := PaymentEngine.update_balance_ok ha h1 h2 h3
    have hb2 : (withAccount e a (applyDeltas acc (-tx.amount) tx.amount 0)).transactions a =
        some bucket := by
      rw [withAccount_transactions]; exact hb
    have hus := PaymentEngine.update_status_ok (s := .Disputed) hb2 hbt
    unfold PaymentEngine.process_dispute
    rw [hlk]
    simp only [Bool.false_eq_true, if_false, hget, hst, eq_self_iff_true, if_true, ha,
      if_neg (not_lt.mpr hle), hub, hus]
    refine ⟨by trivial, ?_, ?_⟩
    · rw [withBucket_accounts, withAccount_self]
      have hrec : applyDeltas acc (-tx.amount) tx.amount 0 =
          { acc with available := acc.available - tx.amount, held := acc.held + tx.amount } := by
        simp only [applyDeltas]
        congr 1 <;> ring
      rw [hrec]
    · exact getTx_withBucket_set _ _ _ _ _ _
  · intro hlt
    unfold PaymentEngine.process_dispute
    rw [hlk]
    simp only [Bool.false_eq_true, if_false, hget, hst, eq_self_iff_true, if_true, ha,
      if_pos hlt]
    exact ⟨by trivial, by trivial⟩

theorem C3_dispute_of_completed_deposit_witness :
    (egDeposit.process_dispute 1 1).2 = .ok () ∧
    (egDeposit.process_dispute 1 1).1.accounts 1 =
      some ⟨1, 100 - 100, 0 + 100, 100, false⟩ ∧
    getTx (egDeposit.process_dispute 1 1).1 1 1 = some ⟨.Deposit, 1, 1, 100, .Disputed⟩ :=
  (C3_dispute_of_completed_deposit egDeposit_reachable egDeposit_accounts rfl
    egDeposit_tx1 rfl rfl (by norm_num)).1 (by norm_num)

/-- C4: in a reachable state, a chargeback on an unlocked account whose
stored transaction is a Disputed deposit: if `held ≥ amount` it succeeds,
removes `amount` from held and total leaving available unchanged, marks
the transaction Chargebacked and locks the account; if `held < amount` it
fails with `InsufficientHoldFunds` and leaves the engine unchanged. -/
theorem C4_chargeback_of_disputed_deposit {e : PaymentEngine} {a t : Nat}
    {acc : Account} {tx : Transaction}
    (hr : Reachable e) (ha : e.accounts a = some acc) (hl : acc.locked = false)
    (htx : getTx e a t = some tx) (hty : tx.tx_type = .Deposit)
    (hst : tx.status = .Disputed) :
    (tx.amount ≤ acc.held →
      (e.process_chargeback a t).2 = .ok () ∧
      (e.process_chargeback a t).1.accounts a =
        some { acc with
          held := acc.held - tx.amount
          total := acc.total - tx.amount
          locked := true } ∧
      getTx (e.process_chargeback a t).1 a t = some { tx with status := .Chargebacked }) ∧
    (acc.held < tx.amount →
      (e.process_chargeback a t).2 = .error .InsufficientHoldFunds ∧
      (e.process_chargeback a t).1 = e) := by
  obtain ⟨htot, hav, hheld⟩ := reachable_inv hr a acc ha
  have hlk : e.is_account_locked a = false := by
    rw [PaymentEngine.is_locked_of_some ha]; exact hl
  obtain ⟨bucket, hb, hbt⟩ := getTx_split htx
  have hget := PaymentEngine.get_deposit_ok hb hbt hty
  constructor
  · intro hle
    have h1 : 0 ≤ acc.available + 0 := by linarith
    have h2 : 0 ≤ acc.held + -tx.amount := by linarith
    have h3 : 0 ≤ acc.total + -tx.amount := by rw [htot]; linarith
    have hub := PaymentEngine.update_balance_ok ha h1 h2 h3
    have hb2 : (withAccount e a (applyDeltas acc 0 (-tx.amount) (-tx.amount))).transactions a =
        some bucket := by
      rw [withAccount_transactions]; exact hb
    have hus := PaymentEngine.update_status_ok (s := .Chargebacked) hb2 hbt
    have hacc2 : (withBucket (withAccount e a (applyDeltas acc 0 (-tx.amount) (-tx.amount))) a
        (bucketSet bucket t tx .Chargebacked)).accounts a =
        some (applyDeltas acc 0 (-tx.amount) (-tx.amount)) := by
      rw [withBucket_accounts, withAccount_self]
    have hlock := PaymentEngine.lock_account_of_some hacc2
    unfold PaymentEngine.process_chargeback
    rw [hlk]
    simp only [Bool.false_eq_true, if_false, hget, hst, ne_eq, eq_self_iff_true,
      not_true_eq_false, if_false, ha, if_neg (not_lt.mpr hle), hub, hus, hlock]
    refine ⟨by trivial, ?_, ?_⟩
    · rw [withAccount_self]
      congr 1
      apply Account.ext <;> simp [applyDeltas] <;> try ring
    · rw [getTx_withAccount]
      exact getTx_withBucket_set _ _ _ _ _ _
  · intro hlt
    unfold PaymentEngine.process_chargeback
    rw [hlk]
    simp only [Bool.false_eq_true, if_false, hget, hst, ne_eq, eq_self_iff_true,
      not_true_eq_false, if_false, ha, if_pos hlt]
    exact ⟨by trivial, by trivial⟩

theorem C4_chargeback_of_disputed_deposit_witness :
    (egDisputed.process_chargeback 1 1).2 = .ok () ∧
    (egDisputed.process_chargeback 1 1).1.accounts 1 =
      some ⟨1, 0, 100 - 100, 100 - 100, true⟩ ∧
    getTx (egDisputed.process_chargeback 1 1).1 1 1 =
      some ⟨.Deposit, 1, 1, 100, .Chargebacked⟩ :=
  (C4_chargeback_of_disputed_deposit egDisputed_reachable egDisputed_accounts rfl
    egDisputed_tx1 rfl rfl).1 (by norm_num)

/-- C5: a withdrawal event on an unlocked account (in a reachable state)
fails with `TransactionAlreadyExists` on a duplicate id; otherwise it
fails with `InsufficientFunds` when the pre-mutation available balance is
below the amount; otherwise it succeeds, lowering available and total by
the amount with held unchanged, and records the transaction with status
Completed. -/
theorem C5_withdrawal_rules {e : PaymentEngine} {a t : Nat} {amt : ℚ}
    (hr : Reachable e) (hl : e.is_account_locked a = false) :
    (e.check_transaction a t = true →
      (e.process_transaction ⟨.Withdrawal, a, t, amt, .Completed⟩).2 =
        .error .TransactionAlreadyExists) ∧
    (e.check_transaction a t = false →
      ((e.get_or_create_account a).2.available < amt →
        (e.process_transaction ⟨.Withdrawal, a, t, amt, .Completed⟩).2 =
          .error .InsufficientFunds) ∧
      (amt ≤ (e.get_or_create_account a).2.available →
        (e.process_transaction ⟨.Withdrawal, a, t, amt, .Completed⟩).2 = .ok () ∧
        (e.process_transaction ⟨.Withdrawal, a, t, amt, .Completed⟩).1.accounts a =
          some { (e.get_or_create_account a).2 with
            available := (e.get_or_create_account a).2.available - amt
            total := (e.get_or_create_account a).2.total - amt } ∧
        getTx (e.process_transaction ⟨.Withdrawal, a, t, amt, .Completed⟩).1 a t =
          some ⟨.Withdrawal, a, t, amt, .Completed⟩)) := by
  have hlk1 : (e.get_or_create_account a).1.is_account_locked a = false := by
    rw [PaymentEngine.goc_locked]; exact hl
  have hinv : AccInv (e.get_or_create_account a).2 := by
    cases hacc : e.accounts a with
    | some acc => rw [PaymentEngine.goc_of_some hacc]; exact reachable_inv hr a acc hacc
    | none => rw [PaymentEngine.goc_of_none hacc]; exact accInv_fresh a
  obtain ⟨htot, hav, hheld⟩ := hinv
  constructor
  · intro hck
    unfold PaymentEngine.process_transaction
    dsimp only
    simp only [hlk1, Bool.false_eq_true, if_false, PaymentEngine.goc_check, hck, if_true]
  · intro hck
    constructor
    · intro hlt
      unfold PaymentEngine.process_transaction
      dsimp only
      simp only [hlk1, Bool.false_eq_true, if_false, PaymentEngine.goc_check, hck,
        ge_iff_le, if_neg (not_le.mpr hlt)]
    · intro hle
      have h1 : 0 ≤ (e.get_or_create_account a).2.available + -amt := by linarith
      have h2 : 0 ≤ (e.get_or_create_account a).2.held + 0 := by linarith
      have h3 : 0 ≤ (e.get_or_create_account a).2.total + -amt := by rw [htot]; linarith
      have hub := PaymentEngine.update_balance_ok (PaymentEngine.goc_accounts_self e a) h1 h2 h3
      unfold PaymentEngine.process_transaction
      dsimp only
      simp only [hlk1, Bool.false_eq_true, if_false, PaymentEngine.goc_check, hck,
        ge_iff_le, if_pos hle, hub]
      refine ⟨by trivial, ?_, ?_⟩
      · rw [PaymentEngine.insert_transaction_accounts, withAccount_self]
        congr 1
        apply Account.ext <;> simp [applyDeltas] <;> try ring
      · exact getTx_insert _ _

theorem C5_withdrawal_rules_witness :
    (egDeposit.process_transaction ⟨.Withdrawal, 1, 2, 80, .Completed⟩).2 = .ok () ∧
    (egDeposit.process_transaction ⟨.Withdrawal, 1, 2, 80, .Completed⟩).1.accounts 1 =
      some { (egDeposit.get_or_create_account 1).2 with
        available := (egDeposit.get_or_create_account 1).2.available - 80
        total := (egDeposit.get_or_create_account 1).2.total - 80 } ∧
    getTx (egDeposit.process_transaction ⟨.Withdrawal, 1, 2, 80, .Completed⟩).1 1 2 =
      some ⟨.Withdrawal, 1, 2, 80, .Completed⟩ :=
  ((C5_withdrawal_rules egDeposit_reachable
      (by rw [PaymentEngine.is_locked_of_some egDeposit_accounts])).2
    (by norm_num [egDeposit, PaymentEngine.check_transaction, stepE,
      PaymentEngine.process_transaction, PaymentEngine.get_or_create_account,
      PaymentEngine.is_account_locked, PaymentEngine.update_account_balance,
      PaymentEngine.insert_transaction, PaymentEngine.new, PaymentEngine.freshAccount])).2
    (by rw [PaymentEngine.goc_of_some egDeposit_accounts]; norm_num)

/-- C7 counterexample: in the reachable locked state `egLocked`,
transaction 1 is a stored Completed deposit, so the claim as stated
demands that `resolve(1, 1)` fail with `TransactionIsNotDisputed`; the
code fails with `AccountLocked` instead, because the locked guard runs
first. -/
theorem C7_resolve_counterexample :
    Reachable egLocked ∧
    getTx egLocked 1 1 = some ⟨.Deposit, 1, 1, 100, .Completed⟩ ∧
    (egLocked.process_resolve 1 1).2 = .error (.AccountLocked 1) ∧
    (egLocked.process_resolve 1 1).2 ≠ .error .TransactionIsNotDisputed := by
  have hlk : egLocked.is_account_locked 1 = true := by
    rw [PaymentEngine.is_locked_of_some egLocked_accounts]
  have hres : (egLocked.process_resolve 1 1).2 = .error (.AccountLocked 1) := by
    simp [PaymentEngine.process_resolve, hlk]
  refine ⟨egLocked_reachable, egLocked_tx1, hres, ?_⟩
  rw [hres]
  intro hc
  exact PaymentError.noConfusion (Except.error.inj hc)

/-- C7 (amended): on an unlocked account, a resolve or chargeback whose
target transaction is a stored deposit with status other than Disputed
fails with `TransactionAlreadyDisputed` when the status is Resolved or
Chargebacked, with `TransactionIsNotDisputed` when it is Completed, and
leaves the engine unchanged in both cases. -/
theorem C7_resolve_chargeback_nondisputed {e : PaymentEngine} {a t : Nat} {tx : Transaction}
    (hl : e.is_account_locked a = false)
    (htx : getTx e a t = some tx) (hty : tx.tx_type = .Deposit) :
    ((tx.status = .Resolved ∨ tx.status = .Chargebacked) →
      (e.process_resolve a t).2 = .error .TransactionAlreadyDisputed ∧
      (e.process_resolve a t).1 = e ∧
      (e.process_chargeback a t).2 = .error .TransactionAlreadyDisputed ∧
      (e.process_chargeback a t).1 = e) ∧
    (tx.status = .Completed →
      (e.process_resolve a t).2 = .error .TransactionIsNotDisputed ∧
      (e.process_resolve a t).1 = e ∧
      (e.process_chargeback a t).2 = .error .TransactionIsNotDisputed ∧
      (e.process_chargeback a t).1 = e) := by
  obtain ⟨bucket, hb, hbt⟩ := getTx_split htx
  have hget := PaymentEngine.get_deposit_ok hb hbt hty
  constructor
  · intro hst
    have hne : tx.status ≠ TransactionStatus.Disputed := by
      rcases hst with h | h <;> rw [h] <;> exact fun hc => TransactionStatus.noConfusion hc
    unfold PaymentEngine.process_resolve PaymentEngine.process_chargeback
    rw [hl]
    simp only [Bool.false_eq_true, if_false, hget, if_pos hne, if_pos hst]
    exact ⟨by trivial, by trivial, by trivial, by trivial⟩
  · intro hst
    have hne : tx.status ≠ TransactionStatus.Disputed := by
      rw [hst]; exact fun hc => TransactionStatus.noConfusion hc
    have hnot : ¬(tx.status = TransactionStatus.Resolved ∨
        tx.status = TransactionStatus.Chargebacked) := by
      rw [hst]
      rintro (hc | hc) <;> exact TransactionStatus.noConfusion hc
    unfold PaymentEngine.process_resolve PaymentEngine.process_chargeback
    rw [hl]
    simp only [Bool.false_eq_true, if_false, hget, if_pos hne, if_neg hnot]
    exact ⟨by trivial, by trivial, by trivial, by trivial⟩

theorem C7_resolve_chargeback_nondisputed_witness :
    (egDeposit.process_resolve 1 1).2 = .error .TransactionIsNotDisputed ∧
    (egDeposit.process_resolve 1 1).1 = egDeposit ∧
    (egDeposit.process_chargeback 1 1).2 = .error .TransactionIsNotDisputed ∧
    (egDeposit.process_chargeback 1 1).1 = egDeposit :=
  (C7_resolve_chargeback_nondisputed
    (by rw [PaymentEngine.is_locked_of_some egDeposit_accounts])
    egDeposit_tx1 rfl).2 rfl

/-- C10: deposits of negative amounts are not rejected for their sign: on
an unlocked account with a fresh transaction id, a negative deposit
succeeds whenever both `available + amount` and `total + amount` stay
non-negative, lowering available and total accordingly, and fails with
`InsufficientFunds` exactly when one of them would go negative. -/
theorem C10_negative_deposit {e : PaymentEngine} {a t : Nat} {amt : ℚ}
    (hr : Reachable e) (hneg : amt < 0)
    (hl : e.is_account_locked a = false) (hck : e.check_transaction a t = false) :
    (0 ≤ (e.get_or_create_account a).2.available + amt ∧
        0 ≤ (e.get_or_create_account a).2.total + amt →
      (e.process_transaction ⟨.Deposit, a, t, amt, .Completed⟩).2 = .ok () ∧
      (e.process_transaction ⟨.Deposit, a, t, amt, .Completed⟩).1.accounts a =
        some { (e.get_or_create_account a).2 with
          available := (e.get_or_create_account a).2.available + amt
          total := (e.get_or_create_account a).2.total + amt }) ∧
    ((e.get_or_create_account a).2.available + amt < 0 ∨
        (e.get_or_create_account a).2.total + amt < 0 →
      (e.process_transaction ⟨.Deposit, a, t, amt, .Completed⟩).2 =
        .error .InsufficientFunds) := by
  have hlk1 : (e.get_or_create_account a).1.is_account_locked a = false := by
    rw [PaymentEngine.goc_locked]; exact hl
  have hinv : AccInv (e.get_or_create_account a).2 := by
    cases hacc : e.accounts a with
    | some acc => rw [PaymentEngine.goc_of_some hacc]; exact reachable_inv hr a acc hacc
    | none => rw [PaymentEngine.goc_of_none hacc]; exact accInv_fresh a
  obtain ⟨htot, hav, hheld⟩ := hinv
  constructor
  · intro hc
    have h2 : 0 ≤ (e.get_or_create_account a).2.held + 0 := by linarith
    have hub := PaymentEngine.update_balance_ok (PaymentEngine.goc_accounts_self e a)
      hc.1 h2 hc.2
    unfold PaymentEngine.process_transaction
    dsimp only
    simp only [hlk1, Bool.false_eq_true, if_false, PaymentEngine.goc_check, hck, hub]
    refine ⟨by trivial, ?_⟩
    rw [PaymentEngine.insert_transaction_accounts, withAccount_self]
    congr 1
    apply Account.ext <;> simp [applyDeltas] <;> try ring
  · intro hc
    have hcond : (e.get_or_create_account a).2.available + amt < 0 ∨
        (e.get_or_create_account a).2.held + 0 < 0 ∨
        (e.get_or_create_account a).2.total + amt < 0 := by
      rcases hc with h | h
      · exact Or.inl h
      · exact Or.inr (Or.inr h)
    have herr := PaymentEngine.update_balance_err (PaymentEngine.goc_accounts_self e a) hcond
    unfold PaymentEngine.process_transaction
    dsimp only
    simp only [hlk1, Bool.false_eq_true, if_false, PaymentEngine.goc_check, hck, herr]

theorem C10_negative_deposit_witness :
    (egDeposit.process_transaction ⟨.Deposit, 1, 2, -5, .Completed⟩).2 = .ok () ∧
    (egDeposit.process_transaction ⟨.Deposit, 1, 2, -5, .Completed⟩).1.accounts 1 =
      some { (egDeposit.get_or_create_account 1).2 with
        available := (egDeposit.get_or_create_account 1).2.available + -5
        total := (egDeposit.get_or_create_account 1).2.total + -5 } :=
  (C10_negative_deposit egDeposit_reachable (by norm_num)
    (by rw [PaymentEngine.is_locked_of_some egDeposit_accounts])
    (by norm_num [egDeposit, PaymentEngine.check_transaction, stepE,
      PaymentEngine.process_transaction, PaymentEngine.get_or_create_account,
      PaymentEngine.is_account_locked, PaymentEngine.update_account_balance,
      PaymentEngine.insert_transaction, PaymentEngine.new,
      PaymentEngine.freshAccount])).1
    (by rw [PaymentEngine.goc_of_some egDeposit_accounts]; norm_num)

/-- The rejection each operation deterministically produces when the exact
same event is replayed right after its own success: duplicate-id for
deposit and withdrawal, wrong-state for dispute and resolve, and the
locked-account rejection for chargeback (its success locks the account). -/
def replayError : Event → PaymentError
  | .deposit _ _ _ => .TransactionAlreadyExists
  | .withdrawal _ _ _ => .TransactionAlreadyExists
  | .dispute _ _ => .TransactionAlreadyDisputed
  | .resolve _ _ => .TransactionAlreadyDisputed
  | .chargeback a _ => .AccountLocked a

theorem replay_transaction {f : PaymentEngine} {tx : Transaction} {acc2 : Account}
    (hacc2 : f.accounts tx.account_id = some acc2) (hl2 : acc2.locked = false)
    (hck2 : f.check_transaction tx.account_id tx.tx_id = true) :
    f.process_transaction tx = (f, .error .TransactionAlreadyExists) := by
  unfold PaymentEngine.process_transaction
  rw [PaymentEngine.goc_of_some hacc2]
  dsimp only
  rw [PaymentEngine.is_locked_of_some hacc2, hl2]
  simp only [Bool.false_eq_true, if_false, hck2, if_true]

theorem replay_dispute {f : PaymentEngine} {a t : Nat} {acc2 : Account} {tx2 : Transaction}
    (hacc2 : f.accounts a = some acc2) (hl2 : acc2.locked = false)
    (hget : f.get_deposit_transaction_status a t = .ok tx2)
    (hst : tx2.status ≠ TransactionStatus.Completed) :
    f.process_dispute a t = (f, .error .TransactionAlreadyDisputed) := by
  unfold PaymentEngine.process_dispute
  rw [PaymentEngine.is_locked_of_some hacc2, hl2]
  simp only [Bool.false_eq_true, if_false, hget, if_neg hst]

theorem replay_resolve {f : PaymentEngine} {a t : Nat} {acc2 : Account} {tx2 : Transaction}
    (hacc2 : f.accounts a = some acc2) (hl2 : acc2.locked = false)
    (hget : f.get_deposit_transaction_status a t = .ok tx2)
    (hne : tx2.status ≠ TransactionStatus.Disputed)
    (hterm : tx2.status = TransactionStatus.Resolved ∨
      tx2.status = TransactionStatus.Chargebacked) :
    f.process_resolve a t = (f, .error .TransactionAlreadyDisputed) := by
  unfold PaymentEngine.process_resolve
  rw [PaymentEngine.is_locked_of_some hacc2, hl2]
  simp only [Bool.false_eq_true, if_false, hget, if_pos hne, if_pos hterm]

theorem locked_chargeback {f : PaymentEngine} {a : Nat} (t : Nat)
    (hlk : f.is_account_locked a = true) :
    f.process_chargeback a t = (f, .error (.AccountLocked a)) := by
  unfold PaymentEngine.process_chargeback
  simp only [hlk, if_true]

/-- C6: replaying any of the five events immediately after its own success
fails deterministically (TransactionAlreadyExists for deposit/withdrawal,
TransactionAlreadyDisputed for dispute/resolve, AccountLocked for
chargeback) and leaves the engine state exactly as after the single
successful application. -/
theorem C6_replay_rejected (e : PaymentEngine) (ev : Event)
    (h : (stepE e ev).2 = .ok ()) :
    (stepE (stepE e ev).1 ev).1 = (stepE e ev).1 ∧
    (stepE (stepE e ev).1 ev).2 = .error (replayError ev) := by
  cases ev with
  | deposit a t amt =>
    obtain ⟨acc2, hacc2, hl2, htx2⟩ := process_transaction_ok_state h
    have hck2 := check_of_getTx htx2
    simp only [stepE]
    rw [replay_transaction hacc2 hl2 hck2]
    exact ⟨rfl, rfl⟩
  | withdrawal a t amt =>
    obtain ⟨acc2, hacc2, hl2, htx2⟩ := process_transaction_ok_state h
    have hck2 := check_of_getTx htx2
    simp only [stepE]
    rw [replay_transaction hacc2 hl2 hck2]
    exact ⟨rfl, rfl⟩
  | dispute a t =>
    obtain ⟨acc, bucket, tx, hacc, hlkf, hb, hbt, hty, hst, hf⟩ := process_dispute_ok_inv h
    have hfacc : (e.process_dispute a t).1.accounts a =
        some (applyDeltas acc (-tx.amount) tx.amount 0) := by
      rw [hf, withBucket_accounts, withAccount_self]
    have hfb : (e.process_dispute a t).1.transactions a =
        some (bucketSet bucket t tx .Disputed) := by
      rw [hf, withBucket_self]
    have hfget : (e.process_dispute a t).1.get_deposit_transaction_status a t =
        .ok { tx with status := .Disputed } :=
      PaymentEngine.get_deposit_ok hfb (bucketSet_self _ _ _ _) hty
    simp only [stepE]
    rw [replay_dispute hfacc hlkf hfget
      (fun hc => TransactionStatus.noConfusion hc)]
    exact ⟨rfl, rfl⟩
  | resolve a t =>
    obtain ⟨acc, bucket, tx, hacc, hlkf, hb, hbt, hty, hst, hf⟩ := process_resolve_ok_inv h
    have hfacc : (e.process_resolve a t).1.accounts a =
        some (applyDeltas acc tx.amount (-tx.amount) 0) := by
      rw [hf, withBucket_accounts, withAccount_self]
    have hfb : (e.process_resolve a t).1.transactions a =
        some (bucketSet bucket t tx .Resolved) := by
      rw [hf, withBucket_self]
    have hfget : (e.process_resolve a t).1.get_deposit_transaction_status a t =
        .ok { tx with status := .Resolved } :=
      PaymentEngine.get_deposit_ok hfb (bucketSet_self _ _ _ _) hty
    simp only [stepE]
    rw [replay_resolve hfacc hlkf hfget
      (fun hc => TransactionStatus.noConfusion hc) (Or.inl rfl)]
    exact ⟨rfl, rfl⟩
  | chargeback a t =>
    have hlkt := process_chargeback_ok_locked h
    simp only [stepE]
    rw [locked_chargeback t hlkt]
    exact ⟨rfl, rfl⟩

theorem C6_replay_rejected_witness :
    (stepE (stepE PaymentEngine.new (.deposit 1 1 100)).1 (.deposit 1 1 100)).1 =
      (stepE PaymentEngine.new (.deposit 1 1 100)).1 ∧
    (stepE (stepE PaymentEngine.new (.deposit 1 1 100)).1 (.deposit 1 1 100)).2 =
      .error (replayError (.deposit 1 1 100)) :=
  C6_replay_rejected PaymentEngine.new (.deposit 1 1 100)
    (by norm_num [stepE, PaymentEngine.process_transaction,
      PaymentEngine.get_or_create_account, PaymentEngine.is_account_locked,
      PaymentEngine.check_transaction, PaymentEngine.update_account_balance,
      PaymentEngine.insert_transaction, PaymentEngine.new, PaymentEngine.freshAccount])

theorem C9_account_creation_witness :
    ((PaymentEngine.new.process_transaction ⟨.Withdrawal, 1, 1, 50, .Completed⟩).2.isOk = false →
      (PaymentEngine.new.process_transaction ⟨.Withdrawal, 1, 1, 50, .Completed⟩).1.accounts 1 =
        some (PaymentEngine.freshAccount 1)) ∧
    (PaymentEngine.new.process_transaction ⟨.Withdrawal, 1, 1, 50, .Completed⟩).1.accounts 1 ≠
      none :=
  (C9_account_creation rfl).1 ⟨.Withdrawal, 1, 1, 50, .Completed⟩ rfl

end Payments
